import Mathlib

/-!
Verification development for the tasm assembler (`tasm.py`).

The program manipulates binary machine words as Python strings, so strings
are modelled as `List Char` and Python exceptions as an explicit error type
`PyErr` threaded through `Except`.  Pure helpers (`fmt_const`, `fmt_mem`,
`fmt_reg`, `check_args`, `assemble_instruction`, `add`, `move`) are
translated one-to-one from the source; the module-level driver loop is
modelled as a function from the list of source lines to a `RunResult` that
records whether the output file was written (`ok`), a line-numbered
diagnostic was printed before exiting (`err`), or an uncaught exception
terminated the process (`crash`).
-/

/-- Constant `WORD_SIZE = 32` from `tasm.py`. -/
def WORD_SIZE : Nat := 32

/-- Constant `MEM_ADDR_BITS = 10` from `tasm.py`. -/
def MEM_ADDR_BITS : Nat := 10

/-- Kinds of Python exception the program can raise: `SyntaxError` (with its
message), `KeyError` (with the missing key), `ValueError` from `int()`, and
`IndexError` from an out-of-range subscript. -/
inductive PyErr where
  | synErr : List Char → PyErr
  | keyErr : List Char → PyErr
  | valErr : PyErr
  | idxErr : PyErr
  deriving DecidableEq

/-- The `register_reference` dictionary from `tasm.py`. -/
def register_reference : List (List Char × Nat) :=
  [("AC".toList, 0), ("DR".toList, 1), ("CR".toList, 2), ("PC".toList, 3), ("IR".toList, 4)]

/-- Dictionary lookup `register_reference[s]` / membership test. -/
def lookupReg (s : List Char) : Option Nat :=
  List.lookup s register_reference

/-- Python `str.upper()` on the ASCII tokens the assembler handles. -/
def upper (s : List Char) : List Char := s.map Char.toUpper

/-- Python `str.isnumeric()` on ASCII tokens: nonempty and all digits. -/
def isnumeric (s : List Char) : Bool := !s.isEmpty && s.all Char.isDigit

/-- Python `"x" in s`. -/
def hasX (s : List Char) : Bool := s.contains 'x'

/-- The guard `args[i].upper() in register_reference` used by `add`/`move`. -/
def isRegister (s : List Char) : Bool := (lookupReg (upper s)).isSome

/-- The `tense` lambda from `tasm.py`:
`"were" if num > 1 or num <= 0 else "was"`. -/
def tense (num : Int) : List Char :=
  if 1 < num ∨ num ≤ 0 then "were".toList else "was".toList

/-- Decimal digits of a natural number (fuel-indexed so that it is
structurally recursive and kernel-evaluable); models Python string
interpolation of an integer. -/
def natReprAux : Nat → Nat → List Char
  | 0, _ => []
  | fuel + 1, n =>
    if n < 10 then [Nat.digitChar n]
    else natReprAux fuel (n / 10) ++ [Nat.digitChar (n % 10)]

/-- Decimal rendering of a natural number. -/
def natRepr (n : Nat) : List Char := natReprAux (n + 1) n

/-- Binary digits of `n`, most significant first, empty for `0`
(fuel-indexed so that it is structurally recursive; all uses supply
`n ≤ fuel`). -/
def binAux : Nat → Nat → List Char
  | 0, _ => []
  | fuel + 1, n =>
    if n = 0 then []
    else binAux fuel (n / 2) ++ [if n % 2 = 1 then '1' else '0']

/-- Python `bin(n)[2:]` for a non-negative `n`: the minimal binary digit
string, with `0` rendered as `"0"`. -/
def natToBin (n : Nat) : List Char := if n = 0 then ['0'] else binAux n n

/-- Numeric value of a binary digit string (used to state round-trip
facts about the emitted fields). -/
def binVal (s : List Char) : Nat :=
  s.foldl (fun a c => 2 * a + (if c = '1' then 1 else 0)) 0

/-- Python `format(n, f"0{w}b")`: binary digits of `n`, left padded with
zeros to at least width `w`. -/
def padBin (w n : Nat) : List Char :=
  List.replicate (w - (natToBin n).length) '0' ++ natToBin n

/-- Value of an ASCII digit string read in base 10. -/
def decVal (s : List Char) : Nat :=
  s.foldl (fun a c => 10 * a + (c.toNat - 48)) 0

/-- Python `int(token)` restricted to the token shapes the assembler feeds
it (every call site is guarded by `str.isnumeric`): a digit string parses
to its decimal value, anything else raises `ValueError`. -/
def pyIntDec (s : List Char) : Option Nat :=
  if isnumeric s then some (decVal s) else none

/-- Value of a single hexadecimal digit character, if it is one. -/
def hexDigitVal (c : Char) : Option Nat :=
  if '0' ≤ c ∧ c ≤ '9' then some (c.toNat - 48)
  else if 'a' ≤ c ∧ c ≤ 'f' then some (c.toNat - 87)
  else if 'A' ≤ c ∧ c ≤ 'F' then some (c.toNat - 55)
  else none

/-- Accumulating base-16 evaluation of a digit string; `none` on the first
non-hex character. -/
def hexDigitsAux : List Char → Nat → Option Nat
  | [], acc => some acc
  | c :: rest, acc =>
    match hexDigitVal c with
    | some v => hexDigitsAux rest (16 * acc + v)
    | none => none

/-- Python `int(token, 16)` on the non-negative token shapes the assembler
feeds it: an optional `0x`/`0X` prefix followed by a nonempty run of hex
digits parses to its value, anything else raises `ValueError`. -/
def pyIntHex (s : List Char) : Option Nat :=
  let body :=
    match s with
    | '0' :: 'x' :: rest => rest
    | '0' :: 'X' :: rest => rest
    | _ => s
  if body.isEmpty then none else hexDigitsAux body 0

/-- Message of the `SyntaxError` raised by `fmt_const`. -/
def constMsg (data : List Char) (l : Nat) : List Char :=
  "maximum data size is ".toList ++ natRepr WORD_SIZE ++ " bits, however ".toList
    ++ data ++ " requires ".toList ++ natRepr l ++ " bits.".toList

/-- Message of the `SyntaxError` raised by `fmt_mem`. -/
def memMsg (addr : Nat) : List Char :=
  "maximum memory address is ".toList ++ natRepr (2 ^ MEM_ADDR_BITS - 1)
    ++ ", however address ".toList ++ natRepr addr ++ " is referenced.".toList

/-- Message of the `SyntaxError` raised by `check_args`. -/
def arityMsg (instr : List Char) (required l : Nat) : List Char :=
  instr ++ " instruction requires ".toList ++ natRepr required
    ++ " arguments, but ".toList ++ natRepr l ++ [' '] ++ tense l
    ++ " supplied.".toList

/-- `fmt_const` from `tasm.py`: parse the token as a decimal integer, take
its minimal binary representation, and reject it when that is wider than
`WORD_SIZE` bits. -/
def fmt_const (data : List Char) : Except PyErr (List Char) :=
  match pyIntDec data with
  | none => Except.error PyErr.valErr
  | some n =>
    let c := natToBin n
    if WORD_SIZE < c.length then Except.error (PyErr.synErr (constMsg data c.length))
    else Except.ok c

/-- `fmt_mem` from `tasm.py`: parse the token in base 16, reject addresses
at or above `2 ** MEM_ADDR_BITS`, and return the address zero padded to
`MEM_ADDR_BITS` binary digits. -/
def fmt_mem (addr : List Char) : Except PyErr (List Char) :=
  match pyIntHex addr with
  | none => Except.error PyErr.valErr
  | some a =>
    if 2 ^ MEM_ADDR_BITS ≤ a then Except.error (PyErr.synErr (memMsg a))
    else Except.ok (padBin MEM_ADDR_BITS a)

/-- `fmt_reg` from `tasm.py`: `format(register_reference[register], "03b")`.
A name absent from the dictionary raises `KeyError`, not `SyntaxError`. -/
def fmt_reg (register : List Char) : Except PyErr (List Char) :=
  match lookupReg register with
  | some v => Except.ok (padBin 3 v)
  | none => Except.error (PyErr.keyErr register)

/-- `check_args` from `tasm.py`. -/
def check_args (instr : List Char) (args : List (List Char)) (required : Nat) :
    Except PyErr Unit :=
  if args.length ≠ required then
    Except.error (PyErr.synErr (arityMsg instr required args.length))
  else Except.ok ()

/-- `assemble_instruction` from `tasm.py`.  `opcode` arrives with its
`"0b"` prefix, so the string slicing `second_param[:-extra_bits]` /
`second_param[-extra_bits:]` becomes `take`/`drop` at
`second_param.length - extra_bits` (with Python's clamping semantics
reproduced by truncated subtraction and `Int.toNat`). -/
def assemble_instruction (opcode first_param second_param : List Char) : List Char :=
  let extra_bits : Int :=
    (opcode.length : Int) + first_param.length + second_param.length - WORD_SIZE - 2
  if 0 < extra_bits then
    let e : Nat := extra_bits.toNat
    let code := "0b111111".toList ++ first_param
      ++ second_param.take (second_param.length - e)
    let padded_bits : Int := (WORD_SIZE : Int) - opcode.length - extra_bits + 2
    let remainder := List.replicate padded_bits.toNat '0'
      ++ second_param.drop (second_param.length - e)
    code ++ ['\n'] ++ opcode ++ remainder
  else if extra_bits < 0 then
    opcode ++ first_param ++ (List.replicate (-extra_bits).toNat '0' ++ second_param)
  else
    opcode ++ first_param ++ second_param

/-- Message of the `SyntaxError` in `add`'s register branch. -/
def addErrReg : List Char :=
  "add instruction can only add a constant value or a value from memory when storing in a register.".toList

/-- Message of the `SyntaxError` in `add`'s memory branch. -/
def addErrMem : List Char :=
  "add instruction can only add a value from a register when storing in a memory location.".toList

/-- Message of the `SyntaxError` in `add`'s final branch. -/
def addErrFirst : List Char :=
  "add instruction requires a register or memory location as the first argument.".toList

/-- Message of the `SyntaxError` in `move`'s register branch. -/
def moveErrReg : List Char :=
  "move instruction only allows to store a constant value or a value from memory in a register.".toList

/-- Message of the `SyntaxError` in `move`'s memory branch. -/
def moveErrMem : List Char :=
  "move instruction only allows to store: a constant value; a value from memory; or a value from a register, in memory.".toList

/-- Message of the `SyntaxError` in `move`'s final branch. -/
def moveErrFirst : List Char :=
  "move instruction requires a register or memory location as the first parameter.".toList

/-- The `add` instruction selector from `tasm.py`.  Exceptions raised by
the helpers propagate, reproducing Python's evaluation order (the register
field of the first operand is computed before the second operand is
inspected). -/
def add (args : List (List Char)) : Except PyErr (List Char) :=
  match check_args ("add".toList) args 2 with
  | Except.error e => Except.error e
  | Except.ok _ =>
    let a0 := args.getD 0 []
    let a1 := args.getD 1 []
    if isRegister a0 then
      match fmt_reg (upper a0) with
      | Except.error e => Except.error e
      | Except.ok reg =>
        if isnumeric a1 then
          match fmt_const a1 with
          | Except.error e => Except.error e
          | Except.ok c => Except.ok (assemble_instruction ("0b000101".toList) reg c)
        else if hasX a1 then
          match fmt_mem a1 with
          | Except.error e => Except.error e
          | Except.ok mf => Except.ok (assemble_instruction ("0b000110".toList) reg mf)
        else Except.error (PyErr.synErr addErrReg)
    else if hasX a0 then
      if isRegister a1 then
        match fmt_reg (upper a1) with
        | Except.error e => Except.error e
        | Except.ok reg =>
          match fmt_mem a0 with
          | Except.error e => Except.error e
          | Except.ok mf => Except.ok (assemble_instruction ("0b000111".toList) mf reg)
      else Except.error (PyErr.synErr addErrMem)
    else Except.error (PyErr.synErr addErrFirst)

/-- The `move` instruction selector from `tasm.py`. -/
def move (args : List (List Char)) : Except PyErr (List Char) :=
  match check_args ("move".toList) args 2 with
  | Except.error e => Except.error e
  | Except.ok _ =>
    let a0 := args.getD 0 []
    let a1 := args.getD 1 []
    if isRegister a0 then
      match fmt_reg (upper a0) with
      | Except.error e => Except.error e
      | Except.ok reg =>
        if isnumeric a1 then
          match fmt_const a1 with
          | Except.error e => Except.error e
          | Except.ok c => Except.ok (assemble_instruction ("0b000000".toList) reg c)
        else if hasX a1 then
          match fmt_mem a1 with
          | Except.error e => Except.error e
          | Except.ok mf => Except.ok (assemble_instruction ("0b000001".toList) reg mf)
        else Except.error (PyErr.synErr moveErrReg)
    else if hasX a0 then
      if isnumeric a1 then
        match fmt_mem a0 with
        | Except.error e => Except.error e
        | Except.ok mf =>
          match fmt_const a1 with
          | Except.error e => Except.error e
          | Except.ok c => Except.ok (assemble_instruction ("0b000010".toList) mf c)
      else if hasX a1 then
        match fmt_mem a0 with
        | Except.error e => Except.error e
        | Except.ok mf =>
          match fmt_mem a1 with
          | Except.error e => Except.error e
          | Except.ok mf2 => Except.ok (assemble_instruction ("0b000011".toList) mf mf2)
      else if isRegister a1 then
        match fmt_mem a0 with
        | Except.error e => Except.error e
        | Except.ok mf =>
          match fmt_reg (upper a1) with
          | Except.error e => Except.error e
          | Except.ok reg => Except.ok (assemble_instruction ("0b000100".toList) mf reg)
      else Except.error (PyErr.synErr moveErrMem)
    else Except.error (PyErr.synErr moveErrFirst)

/-- The `instruction_reference` dictionary from `tasm.py`. -/
def instruction_reference (s : List Char) :
    Option (List (List Char) → Except PyErr (List Char)) :=
  if s = "add".toList then some add
  else if s = "mov".toList then some move
  else none

/-- The driver's `except SyntaxError` clause: which exceptions the
line-level handler catches. -/
def caught : PyErr → Bool
  | PyErr.synErr _ => true
  | _ => false

/-- The whitespace characters Python's `str.split()` splits on (the ones
that can occur in a text file). -/
def pySpace (c : Char) : Bool :=
  c == ' ' || c == '\t' || c == '\n' || c == '\r'

/-- Worker for `str.split()`: accumulates the current token in reverse. -/
def splitWsAux : List Char → List Char → List (List Char)
  | [], cur => if cur.isEmpty then [] else [cur.reverse]
  | c :: rest, cur =>
    if pySpace c then
      if cur.isEmpty then splitWsAux rest [] else cur.reverse :: splitWsAux rest []
    else splitWsAux rest (c :: cur)

/-- Python `str.split()` with no separator: split on runs of whitespace,
discarding empty tokens. -/
def splitWs (s : List Char) : List (List Char) := splitWsAux s []

/-- The driver's tokenizer: `line.replace(",", "").split()`. -/
def tokenize (line : List Char) : List (List Char) :=
  splitWs (line.filter (fun c => c != ','))

/-- Python `text.split("\n")`: split on every newline, keeping empty
pieces (a trailing newline yields a trailing empty line). -/
def splitOnNl : List Char → List (List Char)
  | [] => [[]]
  | c :: rest =>
    if c = '\n' then [] :: splitOnNl rest
    else
      match splitOnNl rest with
      | [] => [[c]]
      | l :: ls => (c :: l) :: ls

/-- Observable outcome of the driver loop of `tasm.py`:
`ok lines` - every source line assembled and the output file was written
with the given lines; `err n msg` - the diagnostic for 1-based line `n`
was printed and `exit()` ran before the output file was opened, so no
file was written; `crash e` - an uncaught exception terminated the
process, also before the output file was opened. -/
inductive RunResult where
  | ok : List (List Char) → RunResult
  | err : Nat → List Char → RunResult
  | crash : PyErr → RunResult
  deriving DecidableEq

/-- The driver loop `for i, line in enumerate(source)` of `tasm.py`,
carrying the running index and the `program_code` buffer.  `tokens[0]` on
an empty token list raises `IndexError`; an unknown mnemonic or a caught
`SyntaxError` prints the line diagnostic and exits; any other exception
propagates. -/
def runFrom (i : Nat) (acc : List (List Char)) : List (List Char) → RunResult
  | [] => RunResult.ok acc
  | line :: rest =>
    match tokenize line with
    | [] => RunResult.crash PyErr.idxErr
    | t0 :: targs =>
      match instruction_reference t0 with
      | none => RunResult.err (i + 1) (t0 ++ " is not a tasm instruction".toList)
      | some f =>
        match f targs with
        | Except.ok code => runFrom (i + 1) (acc ++ [code ++ ['\n']]) rest
        | Except.error (PyErr.synErr m) => RunResult.err (i + 1) m
        | Except.error e => RunResult.crash e

/-- The whole driver on a list of source lines. -/
def run (lines : List (List Char)) : RunResult := runFrom 0 [] lines

/-- The two mnemonics of the instruction set, for stating the opcode
table of spec section 4.2. -/
inductive Mnemonic where
  | add : Mnemonic
  | mov : Mnemonic
  deriving DecidableEq

/-- Operand kinds of spec section 3. -/
inductive OperandKind where
  | register : OperandKind
  | constant : OperandKind
  | memory : OperandKind
  deriving DecidableEq

/-- Token `s` has operand kind `k` and no other: the shape tests the
selectors perform (register-name membership, `isnumeric`, containing the
memory marker) single out exactly `k`. -/
def tokKind (s : List Char) : OperandKind → Bool
  | OperandKind.register => isRegister s && !(isnumeric s) && !(hasX s)
  | OperandKind.constant => isnumeric s && !(isRegister s) && !(hasX s)
  | OperandKind.memory => hasX s && !(isRegister s) && !(isnumeric s)

/-- Modelled from the spec: the opcode table of section 4.2
(mnemonic and operand-kind pair to 6-bit opcode), against which the
selectors `add`/`move` are compared. -/
def opcode_table : Mnemonic → OperandKind → OperandKind → Option (List Char)
  | Mnemonic.add, OperandKind.register, OperandKind.constant => some ("000101".toList)
  | Mnemonic.add, OperandKind.register, OperandKind.memory => some ("000110".toList)
  | Mnemonic.add, OperandKind.memory, OperandKind.register => some ("000111".toList)
  | Mnemonic.mov, OperandKind.register, OperandKind.constant => some ("000000".toList)
  | Mnemonic.mov, OperandKind.register, OperandKind.memory => some ("000001".toList)
  | Mnemonic.mov, OperandKind.memory, OperandKind.constant => some ("000010".toList)
  | Mnemonic.mov, OperandKind.memory, OperandKind.memory => some ("000011".toList)
  | Mnemonic.mov, OperandKind.memory, OperandKind.register => some ("000100".toList)
  | _, _, _ => none

/-- Field encoder for one operand of a given kind, as the selectors
invoke it. -/
def encodeField : OperandKind → List Char → Except PyErr (List Char)
  | OperandKind.register, s => fmt_reg (upper s)
  | OperandKind.constant, s => fmt_const s
  | OperandKind.memory, s => fmt_mem s

/-- Reference composition of one instruction: encode both operand fields
in order and pack them behind the `"0b"`-prefixed opcode. -/
def encodePair (k0 k1 : OperandKind) (op a0 a1 : List Char) :
    Except PyErr (List Char) :=
  match encodeField k0 a0 with
  | Except.error e => Except.error e
  | Except.ok f1 =>
    match encodeField k1 a1 with
    | Except.error e => Except.error e
    | Except.ok f2 => Except.ok (assemble_instruction ("0b".toList ++ op) f1 f2)

/-- The selector function belonging to each mnemonic. -/
def mnemonicFun : Mnemonic → List (List Char) → Except PyErr (List Char)
  | Mnemonic.add => add
  | Mnemonic.mov => move


theorem binAux_zero (fuel : Nat) : binAux fuel 0 = [] := by
  cases fuel <;> simp [binAux]

theorem binVal_append_singleton (l : List Char) (c : Char) :
    binVal (l ++ [c]) = 2 * binVal l + (if c = '1' then 1 else 0) := by
  simp [binVal, List.foldl_append]

theorem binVal_binAux : ∀ fuel n, n ≤ fuel → binVal (binAux fuel n) = n := by
  intro fuel
  induction fuel with
  | zero =>
    intro n h
    have h0 : n = 0 := by omega
    subst h0
    simp [binAux, binVal]
  | succ f ih =>
    intro n h
    by_cases h0 : n = 0
    · subst h0; simp [binAux, binVal]
    · have hdiv : n / 2 ≤ f := by
        have h2 : n / 2 < n := Nat.div_lt_self (Nat.pos_of_ne_zero h0) (by norm_num)
        omega
      simp only [binAux, if_neg h0]
      rw [binVal_append_singleton, ih _ hdiv]
      by_cases h2 : n % 2 = 1 <;> simp [h2] <;> omega

theorem binAux_length_le : ∀ fuel n k, n ≤ fuel →
    ((binAux fuel n).length ≤ k ↔ n < 2 ^ k) := by
  intro fuel
  induction fuel with
  | zero =>
    intro n k h
    have h0 : n = 0 := by omega
    subst h0
    simpa [binAux] using pow_pos (by norm_num : (0 : Nat) < 2) k
  | succ f ih =>
    intro n k h
    by_cases h0 : n = 0
    · subst h0
      simpa [binAux] using pow_pos (by norm_num : (0 : Nat) < 2) k
    · have hdiv : n / 2 ≤ f := by
        have h2 : n / 2 < n := Nat.div_lt_self (Nat.pos_of_ne_zero h0) (by norm_num)
        omega
      simp only [binAux, if_neg h0, List.length_append, List.length_singleton]
      cases k with
      | zero =>
        simp only [pow_zero]
        omega
      | succ k =>
        rw [Nat.succ_le_succ_iff, ih _ k hdiv, pow_succ]
        exact Nat.div_lt_iff_lt_mul (by norm_num)

theorem binAux_head : ∀ fuel n, 0 < n → n ≤ fuel →
    (binAux fuel n).head? = some '1' := by
  intro fuel
  induction fuel with
  | zero => intro n hn h; omega
  | succ f ih =>
    intro n hn h
    simp only [binAux, if_neg (by omega : ¬ n = 0)]
    by_cases hd : n / 2 = 0
    · have h1 : n = 1 := by omega
      subst h1
      simp [hd, binAux_zero]
    · have hdiv : n / 2 ≤ f := by
        have h2 : n / 2 < n := Nat.div_lt_self hn (by norm_num)
        omega
      have hh := ih (n / 2) (Nat.pos_of_ne_zero hd) hdiv
      cases hb : binAux f (n / 2) with
      | nil => rw [hb] at hh; simp at hh
      | cons a as =>
        rw [hb] at hh
        simp only [List.head?_cons, Option.some.injEq] at hh
        simp [hh]

theorem binAux_mem : ∀ fuel n c, c ∈ binAux fuel n → c = '0' ∨ c = '1' := by
  intro fuel
  induction fuel with
  | zero => intro n c hc; simp [binAux] at hc
  | succ f ih =>
    intro n c hc
    by_cases h0 : n = 0
    · subst h0; simp [binAux] at hc
    · simp only [binAux, if_neg h0, List.mem_append, List.mem_singleton] at hc
      rcases hc with hc | hc
      · exact ih _ _ hc
      · by_cases h2 : n % 2 = 1 <;> simp [h2] at hc <;> simp [hc]

theorem binVal_natToBin (n : Nat) : binVal (natToBin n) = n := by
  by_cases h : n = 0
  · subst h; simp [natToBin, binVal]
  · simp only [natToBin, if_neg h]
    exact binVal_binAux n n le_rfl

theorem natToBin_length_le (n k : Nat) (hk : 1 ≤ k) :
    (natToBin n).length ≤ k ↔ n < 2 ^ k := by
  by_cases h : n = 0
  · subst h
    simp only [natToBin, if_pos rfl, List.length_singleton]
    exact iff_of_true hk (pow_pos (by norm_num) k)
  · simp only [natToBin, if_neg h]
    exact binAux_length_le n n k le_rfl

theorem natToBin_head (n : Nat) :
    natToBin n = ['0'] ∨ (natToBin n).head? = some '1' := by
  by_cases h : n = 0
  · left; simp [natToBin, h]
  · right
    simp only [natToBin, if_neg h]
    exact binAux_head n n (Nat.pos_of_ne_zero h) le_rfl

theorem natToBin_mem (n : Nat) (c : Char) (hc : c ∈ natToBin n) :
    c = '0' ∨ c = '1' := by
  by_cases h : n = 0
  · subst h; simp [natToBin] at hc; simp [hc]
  · simp only [natToBin, if_neg h] at hc
    exact binAux_mem n n c hc

theorem binVal_cons_zero (l : List Char) : binVal ('0' :: l) = binVal l := rfl

theorem binVal_replicate_zero (k : Nat) (l : List Char) :
    binVal (List.replicate k '0' ++ l) = binVal l := by
  induction k with
  | zero => simp
  | succ k ih => rw [List.replicate_succ, List.cons_append, binVal_cons_zero, ih]

theorem padBin_length (w n : Nat) (h : (natToBin n).length ≤ w) :
    (padBin w n).length = w := by
  simp only [padBin, List.length_append, List.length_replicate]
  omega

theorem binVal_padBin (w n : Nat) : binVal (padBin w n) = n := by
  rw [padBin, binVal_replicate_zero, binVal_natToBin]

/-- Claim C5: when `extra_bits = len(opcode) + len(first) + len(second) -
WORD_SIZE - 2` is zero or negative, `assemble_instruction` emits exactly one
word `opcode ++ first ++ ('0' * |extra_bits|) ++ second` (direct
concatenation when `extra_bits = 0`), with fields in original bit order, of
total length exactly `WORD_SIZE + 2` characters, and containing no newline
when the fields contain none. -/
theorem claim_C5_single_word (opcode first_param second_param : List Char)
    (hsum : opcode.length + first_param.length + second_param.length ≤ 34) :
    assemble_instruction opcode first_param second_param =
      opcode ++ first_param
        ++ (List.replicate
              (34 - (opcode.length + first_param.length + second_param.length)) '0'
            ++ second_param)
    ∧ (assemble_instruction opcode first_param second_param).length = 34
    ∧ ('\n' ∉ opcode → '\n' ∉ first_param → '\n' ∉ second_param →
        '\n' ∉ assemble_instruction opcode first_param second_param) := by
  have hmain : assemble_instruction opcode first_param second_param =
      opcode ++ first_param
        ++ (List.replicate
              (34 - (opcode.length + first_param.length + second_param.length)) '0'
            ++ second_param) := by
    simp only [assemble_instruction, WORD_SIZE]
    by_cases heq : opcode.length + first_param.length + second_param.length = 34
    · rw [if_neg (by omega), if_neg (by omega)]
      rw [heq]
      simp
    · rw [if_neg (by omega), if_pos (by omega)]
      have hz : (-((opcode.length : Int) + ↑first_param.length + ↑second_param.length
            - ((32 : Nat) : Int) - 2)).toNat
          = 34 - (opcode.length + first_param.length + second_param.length) := by
        omega
      rw [hz]
  refine ⟨hmain, ?_, ?_⟩
  · rw [hmain]
    simp only [List.length_append, List.length_replicate]
    omega
  · intro h1 h2 h3
    rw [hmain]
    simp [List.mem_append, List.mem_replicate, h1, h2, h3]

/-- Claim C1: when `extra_bits = len(opcode) + len(first) + len(second) -
WORD_SIZE - 2` is strictly positive (with the `"0b"`-prefixed 8-character
opcode and the field widths the selectors produce), exactly two words are
emitted, separated by a newline: the first is the sentinel `"0b111111"`
followed by the first field and the high-order `len(second) - extra_bits`
bits of the second field, the second is the original opcode, left zero
padding, and the low-order `extra_bits` bits of the second field;
concatenating the two portions of the second field recovers it
bit-for-bit, and both words are exactly `WORD_SIZE + 2` characters. -/
theorem claim_C1_overflow_two_words (opcode first_param second_param : List Char)
    (e : Nat) (h8 : opcode.length = 8) (he : 0 < e) (he26 : e ≤ 26)
    (hes : e ≤ second_param.length)
    (hsum : opcode.length + first_param.length + second_param.length = 34 + e) :
    assemble_instruction opcode first_param second_param =
      ("0b111111".toList ++ first_param
          ++ second_param.take (second_param.length - e))
        ++ ['\n']
        ++ (opcode ++ (List.replicate (26 - e) '0'
            ++ second_param.drop (second_param.length - e)))
    ∧ ("0b111111".toList ++ first_param
        ++ second_param.take (second_param.length - e)).length = 34
    ∧ (opcode ++ (List.replicate (26 - e) '0'
        ++ second_param.drop (second_param.length - e))).length = 34
    ∧ second_param.take (second_param.length - e)
        ++ second_param.drop (second_param.length - e) = second_param
    ∧ ('\n' ∉ opcode → '\n' ∉ first_param → '\n' ∉ second_param →
        '\n' ∉ ("0b111111".toList ++ first_param
            ++ second_param.take (second_param.length - e))
        ∧ '\n' ∉ (opcode ++ (List.replicate (26 - e) '0'
            ++ second_param.drop (second_param.length - e)))) := by
  have hmain : assemble_instruction opcode first_param second_param =
      ("0b111111".toList ++ first_param
          ++ second_param.take (second_param.length - e))
        ++ ['\n']
        ++ (opcode ++ (List.replicate (26 - e) '0'
            ++ second_param.drop (second_param.length - e))) := by
    simp only [assemble_instruction, WORD_SIZE]
    rw [if_pos (by omega)]
    have h1 : ((opcode.length : Int) + ↑first_param.length + ↑second_param.length
        - ((32 : Nat) : Int) - 2).toNat = e := by omega
    have h2 : (((32 : Nat) : Int) - ↑opcode.length
        - ((opcode.length : Int) + ↑first_param.length + ↑second_param.length
            - ((32 : Nat) : Int) - 2)
        + 2).toNat = 26 - e := by omega
    rw [h1, h2]
    simp [List.append_assoc]
  refine ⟨hmain, ?_, ?_, List.take_append_drop _ _, ?_⟩
  · simp [List.length_append, List.length_take, String.toList]
    omega
  · simp only [List.length_append, List.length_replicate, List.length_drop]
    omega
  · intro h1 h2 h3
    constructor
    · simp [List.mem_append, h2]
      intro hmem
      exact h3 (List.take_subset _ _ hmem)
    · simp [List.mem_append, List.mem_replicate, h1]
      intro hmem
      exact h3 (List.drop_subset _ _ hmem)

/-- Claim C5 witness: `mov AC, 0x3FF`'s field widths (8 + 3 + 10 = 21
characters) give a single under-full word padded with 13 zeros. -/
theorem claim_C5_witness :
    assemble_instruction ("0b000001".toList) ("000".toList) ("1111111111".toList) =
      "0b000001".toList ++ "000".toList
        ++ (List.replicate 13 '0' ++ "1111111111".toList) := by
  have h := (claim_C5_single_word ("0b000001".toList) ("000".toList)
    ("1111111111".toList) (by decide)).1
  exact h.trans (by decide)

/-- Claim C1 witness: an 8-character opcode, a 3-bit register field and a
32-bit constant field overflow by `extra_bits = 9`, producing the two
34-character words of the claim. -/
theorem claim_C1_witness :
    assemble_instruction ("0b000101".toList) ("000".toList) (List.replicate 32 '1') =
      ("0b111111".toList ++ "000".toList ++ List.replicate 23 '1')
        ++ ['\n']
        ++ ("0b000101".toList ++ (List.replicate 17 '0' ++ List.replicate 9 '1')) := by
  have h := (claim_C1_overflow_two_words ("0b000101".toList) ("000".toList)
    (List.replicate 32 '1') 9 (by decide) (by decide) (by decide) (by decide)
    (by decide)).1
  exact h.trans (by decide)

/-- Claim C3: for a non-negative decimal constant token, `fmt_const` fails
with the constant-too-wide `SyntaxError` exactly when the value needs more
than `WORD_SIZE = 32` bits (that is, when it is at least `2 ^ 32`); a value
of minimal width exactly 32 (at least `2 ^ 31`, below `2 ^ 32`) succeeds;
and on success the result is the minimal binary representation of the
value: binary digits only, round-tripping to the value, no leading zero,
and of length exactly 32 when the value is at least `2 ^ 31`. -/
theorem claim_C3_constant_width (s : List Char) (hs : isnumeric s = true) :
    ((∃ m, fmt_const s = Except.error (PyErr.synErr m)) ↔ 2 ^ 32 ≤ decVal s)
    ∧ (decVal s < 2 ^ 32 → fmt_const s = Except.ok (natToBin (decVal s)))
    ∧ (∀ c, fmt_const s = Except.ok c →
        binVal c = decVal s
        ∧ (∀ ch ∈ c, ch = '0' ∨ ch = '1')
        ∧ (c = ['0'] ∨ c.head? = some '1')
        ∧ c.length ≤ 32
        ∧ (2 ^ 31 ≤ decVal s → c.length = 32)) := by
  have hn : pyIntDec s = some (decVal s) := by simp [pyIntDec, hs]
  have hiff : (natToBin (decVal s)).length ≤ 32 ↔ decVal s < 2 ^ 32 :=
    natToBin_length_le (decVal s) 32 (by norm_num)
  simp only [fmt_const, hn]
  by_cases hbig : 2 ^ 32 ≤ decVal s
  · have hlen : WORD_SIZE < (natToBin (decVal s)).length := by
      simp only [WORD_SIZE]
      by_contra hle
      push_neg at hle
      exact absurd (hiff.mp hle) (by omega)
    rw [if_pos hlen]
    refine ⟨iff_of_true ⟨_, rfl⟩ hbig, fun h => absurd h (by omega), ?_⟩
    intro c hc
    exact absurd hc (by simp)
  · push_neg at hbig
    have hlen : ¬ WORD_SIZE < (natToBin (decVal s)).length := by
      simp only [WORD_SIZE]
      have := hiff.mpr hbig
      omega
    rw [if_neg hlen]
    refine ⟨iff_of_false (by rintro ⟨m, hm⟩; simp at hm) (by omega), fun _ => rfl, ?_⟩
    intro c hc
    have hc' : natToBin (decVal s) = c := by
      injection hc
    subst hc'
    refine ⟨binVal_natToBin _, fun ch hch => natToBin_mem _ ch hch, natToBin_head _,
      ?_, ?_⟩
    · simp only [WORD_SIZE] at hlen
      omega
    · intro h31
      have h1 : ¬ (natToBin (decVal s)).length ≤ 31 := by
        rw [natToBin_length_le (decVal s) 31 (by norm_num)]
        have : (2 : Nat) ^ 31 < 2 ^ 32 := by norm_num
        omega
      simp only [WORD_SIZE] at hlen
      omega

/-- Claim C3 witness: the token `5` encodes to the minimal binary string
of the value 5. -/
theorem claim_C3_witness :
    fmt_const ("5".toList) = Except.ok (natToBin (decVal ("5".toList))) :=
  (claim_C3_constant_width ("5".toList) (by decide)).2.1 (by decide)

/-- Claim C4: for a memory token parsing in base 16 to `a`, `fmt_mem`
fails with the address-out-of-range `SyntaxError` exactly when
`a ≥ 2 ^ MEM_ADDR_BITS = 1024`; for `a ≤ 1023` it succeeds with a
zero-padded binary string of exactly `MEM_ADDR_BITS = 10` characters
whose value is `a`. -/
theorem claim_C4_memory_range (s : List Char) (a : Nat)
    (hp : pyIntHex s = some a) :
    (2 ^ MEM_ADDR_BITS ≤ a → fmt_mem s = Except.error (PyErr.synErr (memMsg a)))
    ∧ (a < 2 ^ MEM_ADDR_BITS →
        fmt_mem s = Except.ok (padBin MEM_ADDR_BITS a)
        ∧ (padBin MEM_ADDR_BITS a).length = MEM_ADDR_BITS
        ∧ binVal (padBin MEM_ADDR_BITS a) = a)
    ∧ ((∃ m, fmt_mem s = Except.error (PyErr.synErr m)) ↔ 2 ^ MEM_ADDR_BITS ≤ a) := by
  simp only [fmt_mem, hp]
  by_cases hge : 2 ^ MEM_ADDR_BITS ≤ a
  · rw [if_pos hge]
    exact ⟨fun _ => rfl, fun h => absurd h (by omega), iff_of_true ⟨_, rfl⟩ hge⟩
  · rw [if_neg hge]
    push_neg at hge
    refine ⟨fun h => absurd h (by omega), fun _ => ⟨rfl, ?_, binVal_padBin _ _⟩, ?_⟩
    · exact padBin_length _ _ ((natToBin_length_le a MEM_ADDR_BITS (by decide)).mpr hge)
    · exact iff_of_false (by rintro ⟨m, hm⟩; simp at hm) (by omega)

/-- Claim C4 witness: `0x3FF` parses to 1023, the largest legal address,
and encodes to exactly 10 bits. -/
theorem claim_C4_witness :
    fmt_mem ("0x3FF".toList) = Except.ok (padBin MEM_ADDR_BITS 1023)
    ∧ (padBin MEM_ADDR_BITS 1023).length = MEM_ADDR_BITS :=
  ⟨(((claim_C4_memory_range ("0x3FF".toList) 1023 (by decide)).2.1) (by decide)).1,
    (((claim_C4_memory_range ("0x3FF".toList) 1023 (by decide)).2.1) (by decide)).2.1⟩

/-- Claim C9: `check_args instr args 2` raises the arity `SyntaxError`
exactly when `len(args) ≠ 2`; the message uses `was` for exactly one
supplied argument and `were` for zero or two-or-more, and quotes the
actual count (both the rendered count and the tense word occur verbatim
inside the message). -/
theorem claim_C9_arity (instr : List Char) (args : List (List Char)) :
    (check_args instr args 2 = Except.ok () ↔ args.length = 2)
    ∧ (args.length ≠ 2 →
        check_args instr args 2
          = Except.error (PyErr.synErr (arityMsg instr 2 args.length)))
    ∧ (args.length = 1 → tense args.length = "was".toList)
    ∧ (args.length = 0 ∨ 2 ≤ args.length → tense args.length = "were".toList)
    ∧ List.IsInfix (natRepr args.length) (arityMsg instr 2 args.length)
    ∧ List.IsInfix (tense args.length) (arityMsg instr 2 args.length) := by
  refine ⟨?_, ?_, ?_, ?_, ?_, ?_⟩
  · by_cases h : args.length = 2 <;> simp [check_args, h]
  · intro h
    simp [check_args, h]
  · intro h
    rw [h]
    decide
  · rintro (h | h)
    · rw [h]; decide
    · have h1 : (1 : Int) < (args.length : Int) := by exact_mod_cast h
      rw [tense, if_pos (Or.inl h1)]
  · exact ⟨instr ++ " instruction requires ".toList ++ natRepr 2
        ++ " arguments, but ".toList,
      [' '] ++ tense args.length ++ " supplied.".toList,
      by simp [arityMsg, List.append_assoc]⟩
  · exact ⟨instr ++ " instruction requires ".toList ++ natRepr 2
        ++ " arguments, but ".toList ++ natRepr args.length ++ [' '],
      " supplied.".toList,
      by simp [arityMsg, List.append_assoc]⟩

/-- Claim C9 witness: one supplied argument yields the arity error with
`was`. -/
theorem claim_C9_witness :
    check_args ("add".toList) [("5".toList)] 2
      = Except.error (PyErr.synErr (arityMsg ("add".toList) 2 1))
    ∧ tense 1 = "was".toList :=
  ⟨(claim_C9_arity ("add".toList) [("5".toList)]).2.1 (by decide),
    (claim_C9_arity ("add".toList) [("5".toList)]).2.2.1 rfl⟩

/-- Claim C8 (amended): for every register name absent from the register
table, `fmt_reg` raises a `KeyError` naming the register; this is not a
`SyntaxError`, so the driver's `except SyntaxError` handler would not
catch it (in the program this path is unreachable, because `fmt_reg` is
only called after a membership check). -/
theorem claim_C8_keyerror_uncaught (s : List Char) (h : lookupReg s = none) :
    fmt_reg s = Except.error (PyErr.keyErr s)
    ∧ caught (PyErr.keyErr s) = false := by
  constructor
  · simp [fmt_reg, h]
  · rfl

/-- Claim C8 counterexample: `fmt_reg` on an unknown name raises
`KeyError`, which the driver's `except SyntaxError` clause does not catch,
unlike the encoding errors, which are `SyntaxError` and are caught — so
the failure is not of the same catchable kind the claim asserts. -/
theorem claim_C8_cex :
    fmt_reg ("ZZ".toList) = Except.error (PyErr.keyErr ("ZZ".toList))
    ∧ caught (PyErr.keyErr ("ZZ".toList)) = false
    ∧ caught (PyErr.synErr []) = true :=
  ⟨rfl, rfl, rfl⟩

/-- Claim C8 witness for the amended statement. -/
theorem claim_C8_witness :
    fmt_reg ("QQ".toList) = Except.error (PyErr.keyErr ("QQ".toList))
    ∧ caught (PyErr.keyErr ("QQ".toList)) = false :=
  claim_C8_keyerror_uncaught ("QQ".toList) (by decide)

theorem check_args_pair (instr : List Char) (a0 a1 : List Char) :
    check_args instr [a0, a1] 2 = Except.ok () := by
  simp [check_args]

theorem sel_add_reg_const (a0 a1 : List Char) (hr0 : isRegister a0 = true)
    (hn1 : isnumeric a1 = true) :
    add [a0, a1] = encodePair OperandKind.register OperandKind.constant
      ("000101".toList) a0 a1 := by
  have hr0' := hr0
  simp only [isRegister] at hr0'
  obtain ⟨v, hv⟩ := Option.isSome_iff_exists.mp hr0'
  simp only [add, check_args_pair, List.getD_cons_zero, List.getD_cons_succ, hr0,
    if_true, hn1, fmt_reg, hv, encodePair, encodeField]
  cases hfc : fmt_const a1 <;> simp [hfc]

theorem sel_add_reg_mem (a0 a1 : List Char) (hr0 : isRegister a0 = true)
    (hn1 : isnumeric a1 = false) (hx1 : hasX a1 = true) :
    add [a0, a1] = encodePair OperandKind.register OperandKind.memory
      ("000110".toList) a0 a1 := by
  have hr0' := hr0
  simp only [isRegister] at hr0'
  obtain ⟨v, hv⟩ := Option.isSome_iff_exists.mp hr0'
  simp only [add, check_args_pair, List.getD_cons_zero, List.getD_cons_succ, hr0,
    if_true, hn1, hx1, fmt_reg, hv, encodePair, encodeField, Bool.false_eq_true,
    if_false]
  cases hfm : fmt_mem a1 <;> simp [hfm]

theorem sel_add_mem_reg (a0 a1 : List Char) (hr0 : isRegister a0 = false)
    (hx0 : hasX a0 = true) (hr1 : isRegister a1 = true) :
    add [a0, a1] = encodePair OperandKind.memory OperandKind.register
      ("000111".toList) a0 a1 := by
  have hr1' := hr1
  simp only [isRegister] at hr1'
  obtain ⟨v, hv⟩ := Option.isSome_iff_exists.mp hr1'
  simp only [add, check_args_pair, List.getD_cons_zero, List.getD_cons_succ, hr0,
    hx0, hr1, if_true, fmt_reg, hv, encodePair, encodeField, Bool.false_eq_true,
    if_false]
  cases hfm : fmt_mem a0 <;> simp [hfm, fmt_reg, hv]

theorem sel_add_err_reg (a0 a1 : List Char) (hr0 : isRegister a0 = true)
    (hn1 : isnumeric a1 = false) (hx1 : hasX a1 = false) :
    add [a0, a1] = Except.error (PyErr.synErr addErrReg) := by
  have hr0' := hr0
  simp only [isRegister] at hr0'
  obtain ⟨v, hv⟩ := Option.isSome_iff_exists.mp hr0'
  simp [add, check_args_pair, hr0, hn1, hx1, fmt_reg, hv]

theorem sel_add_err_mem (a0 a1 : List Char) (hr0 : isRegister a0 = false)
    (hx0 : hasX a0 = true) (hr1 : isRegister a1 = false) :
    add [a0, a1] = Except.error (PyErr.synErr addErrMem) := by
  simp [add, check_args_pair, hr0, hx0, hr1]

theorem sel_add_err_first (a0 a1 : List Char) (hr0 : isRegister a0 = false)
    (hx0 : hasX a0 = false) :
    add [a0, a1] = Except.error (PyErr.synErr addErrFirst) := by
  simp [add, check_args_pair, hr0, hx0]

theorem sel_move_reg_const (a0 a1 : List Char) (hr0 : isRegister a0 = true)
    (hn1 : isnumeric a1 = true) :
    move [a0, a1] = encodePair OperandKind.register OperandKind.constant
      ("000000".toList) a0 a1 := by
  have hr0' := hr0
  simp only [isRegister] at hr0'
  obtain ⟨v, hv⟩ := Option.isSome_iff_exists.mp hr0'
  simp only [move, check_args_pair, List.getD_cons_zero, List.getD_cons_succ, hr0,
    if_true, hn1, fmt_reg, hv, encodePair, encodeField]
  cases hfc : fmt_const a1 <;> simp [hfc]

theorem sel_move_reg_mem (a0 a1 : List Char) (hr0 : isRegister a0 = true)
    (hn1 : isnumeric a1 = false) (hx1 : hasX a1 = true) :
    move [a0, a1] = encodePair OperandKind.register OperandKind.memory
      ("000001".toList) a0 a1 := by
  have hr0' := hr0
  simp only [isRegister] at hr0'
  obtain ⟨v, hv⟩ := Option.isSome_iff_exists.mp hr0'
  simp only [move, check_args_pair, List.getD_cons_zero, List.getD_cons_succ, hr0,
    if_true, hn1, hx1, fmt_reg, hv, encodePair, encodeField, Bool.false_eq_true,
    if_false]
  cases hfm : fmt_mem a1 <;> simp [hfm]

theorem sel_move_mem_const (a0 a1 : List Char) (hr0 : isRegister a0 = false)
    (hx0 : hasX a0 = true) (hn1 : isnumeric a1 = true) :
    move [a0, a1] = encodePair OperandKind.memory OperandKind.constant
      ("000010".toList) a0 a1 := by
  simp only [move, check_args_pair, List.getD_cons_zero, List.getD_cons_succ, hr0,
    hx0, hn1, if_true, encodePair, encodeField, Bool.false_eq_true, if_false]
  cases hfm : fmt_mem a0 <;> cases hfc : fmt_const a1 <;> simp [hfm, hfc]

theorem sel_move_mem_mem (a0 a1 : List Char) (hr0 : isRegister a0 = false)
    (hx0 : hasX a0 = true) (hn1 : isnumeric a1 = false) (hx1 : hasX a1 = true) :
    move [a0, a1] = encodePair OperandKind.memory OperandKind.memory
      ("000011".toList) a0 a1 := by
  simp only [move, check_args_pair, List.getD_cons_zero, List.getD_cons_succ, hr0,
    hx0, hn1, hx1, if_true, encodePair, encodeField, Bool.false_eq_true, if_false]
  cases hfm : fmt_mem a0 <;> cases hfc : fmt_mem a1 <;> simp [hfm, hfc]

theorem sel_move_mem_reg (a0 a1 : List Char) (hr0 : isRegister a0 = false)
    (hx0 : hasX a0 = true) (hn1 : isnumeric a1 = false) (hx1 : hasX a1 = false)
    (hr1 : isRegister a1 = true) :
    move [a0, a1] = encodePair OperandKind.memory OperandKind.register
      ("000100".toList) a0 a1 := by
  have hr1' := hr1
  simp only [isRegister] at hr1'
  obtain ⟨v, hv⟩ := Option.isSome_iff_exists.mp hr1'
  simp only [move, check_args_pair, List.getD_cons_zero, List.getD_cons_succ, hr0,
    hx0, hn1, hx1, hr1, if_true, fmt_reg, hv, encodePair, encodeField,
    Bool.false_eq_true, if_false]
  cases hfm : fmt_mem a0 <;> simp [hfm, fmt_reg, hv]

theorem sel_move_err_reg (a0 a1 : List Char) (hr0 : isRegister a0 = true)
    (hn1 : isnumeric a1 = false) (hx1 : hasX a1 = false) :
    move [a0, a1] = Except.error (PyErr.synErr moveErrReg) := by
  have hr0' := hr0
  simp only [isRegister] at hr0'
  obtain ⟨v, hv⟩ := Option.isSome_iff_exists.mp hr0'
  simp [move, check_args_pair, hr0, hn1, hx1, fmt_reg, hv]

theorem sel_move_err_mem (a0 a1 : List Char) (hr0 : isRegister a0 = false)
    (hx0 : hasX a0 = true) (hn1 : isnumeric a1 = false) (hx1 : hasX a1 = false)
    (hr1 : isRegister a1 = false) :
    move [a0, a1] = Except.error (PyErr.synErr moveErrMem) := by
  simp [move, check_args_pair, hr0, hx0, hn1, hx1, hr1]

theorem sel_move_err_first (a0 a1 : List Char) (hr0 : isRegister a0 = false)
    (hx0 : hasX a0 = false) :
    move [a0, a1] = Except.error (PyErr.synErr moveErrFirst) := by
  simp [move, check_args_pair, hr0, hx0]

/-- Claim C2: for every mnemonic and every pairing of operand-kind-classified
tokens, the instruction selector emits exactly the 6-bit opcode of the
table of spec section 4.2 (packed behind the 2-character `0b` prefix, with
the operand fields encoded in order), and every pairing outside the table
is a `SyntaxError` naming the invalid combination — never a silent
encoding. -/
theorem claim_C2_opcode_selection (m : Mnemonic) (a0 a1 : List Char)
    (k0 k1 : OperandKind) (h0 : tokKind a0 k0 = true) (h1 : tokKind a1 k1 = true) :
    (∀ op, opcode_table m k0 k1 = some op →
        mnemonicFun m [a0, a1] = encodePair k0 k1 op a0 a1)
    ∧ (opcode_table m k0 k1 = none →
        ∃ msg, mnemonicFun m [a0, a1] = Except.error (PyErr.synErr msg)) := by
  cases m <;> cases k0 <;> cases k1 <;>
    simp only [tokKind, Bool.and_eq_true, Bool.not_eq_true'] at h0 h1
  · -- add, register, register
    obtain ⟨⟨hr0, hn0⟩, hx0⟩ := h0
    obtain ⟨⟨hr1, hn1⟩, hx1⟩ := h1
    exact ⟨fun op hop => absurd hop (by simp [opcode_table]),
      fun _ => ⟨addErrReg, sel_add_err_reg a0 a1 hr0 hn1 hx1⟩⟩
  · -- add, register, constant
    obtain ⟨⟨hr0, hn0⟩, hx0⟩ := h0
    obtain ⟨⟨hn1, hr1⟩, hx1⟩ := h1
    refine ⟨fun op hop => ?_, fun hnone => absurd hnone (by simp [opcode_table])⟩
    simp only [opcode_table, Option.some.injEq] at hop
    subst hop
    exact sel_add_reg_const a0 a1 hr0 hn1
  · -- add, register, memory
    obtain ⟨⟨hr0, hn0⟩, hx0⟩ := h0
    obtain ⟨⟨hx1, hr1⟩, hn1⟩ := h1
    refine ⟨fun op hop => ?_, fun hnone => absurd hnone (by simp [opcode_table])⟩
    simp only [opcode_table, Option.some.injEq] at hop
    subst hop
    exact sel_add_reg_mem a0 a1 hr0 hn1 hx1
  · -- add, constant, register
    obtain ⟨⟨hn0, hr0⟩, hx0⟩ := h0
    exact ⟨fun op hop => absurd hop (by simp [opcode_table]),
      fun _ => ⟨addErrFirst, sel_add_err_first a0 a1 hr0 hx0⟩⟩
  · -- add, constant, constant
    obtain ⟨⟨hn0, hr0⟩, hx0⟩ := h0
    exact ⟨fun op hop => absurd hop (by simp [opcode_table]),
      fun _ => ⟨addErrFirst, sel_add_err_first a0 a1 hr0 hx0⟩⟩
  · -- add, constant, memory
    obtain ⟨⟨hn0, hr0⟩, hx0⟩ := h0
    exact ⟨fun op hop => absurd hop (by simp [opcode_table]),
      fun _ => ⟨addErrFirst, sel_add_err_first a0 a1 hr0 hx0⟩⟩
  · -- add, memory, register
    obtain ⟨⟨hx0, hr0⟩, hn0⟩ := h0
    obtain ⟨⟨hr1, hn1⟩, hx1⟩ := h1
    refine ⟨fun op hop => ?_, fun hnone => absurd hnone (by simp [opcode_table])⟩
    simp only [opcode_table, Option.some.injEq] at hop
    subst hop
    exact sel_add_mem_reg a0 a1 hr0 hx0 hr1
  · -- add, memory, constant
    obtain ⟨⟨hx0, hr0⟩, hn0⟩ := h0
    obtain ⟨⟨hn1, hr1⟩, hx1⟩ := h1
    exact ⟨fun op hop => absurd hop (by simp [opcode_table]),
      fun _ => ⟨addErrMem, sel_add_err_mem a0 a1 hr0 hx0 hr1⟩⟩
  · -- add, memory, memory
    obtain ⟨⟨hx0, hr0⟩, hn0⟩ := h0
    obtain ⟨⟨hx1, hr1⟩, hn1⟩ := h1
    exact ⟨fun op hop => absurd hop (by simp [opcode_table]),
      fun _ => ⟨addErrMem, sel_add_err_mem a0 a1 hr0 hx0 hr1⟩⟩
  · -- mov, register, register
    obtain ⟨⟨hr0, hn0⟩, hx0⟩ := h0
    obtain ⟨⟨hr1, hn1⟩, hx1⟩ := h1
    exact ⟨fun op hop => absurd hop (by simp [opcode_table]),
      fun _ => ⟨moveErrReg, sel_move_err_reg a0 a1 hr0 hn1 hx1⟩⟩
  · -- mov, register, constant
    obtain ⟨⟨hr0, hn0⟩, hx0⟩ := h0
    obtain ⟨⟨hn1, hr1⟩, hx1⟩ := h1
    refine ⟨fun op hop => ?_, fun hnone => absurd hnone (by simp [opcode_table])⟩
    simp only [opcode_table, Option.some.injEq] at hop
    subst hop
    exact sel_move_reg_const a0 a1 hr0 hn1
  · -- mov, register, memory
    obtain ⟨⟨hr0, hn0⟩, hx0⟩ := h0
    obtain ⟨⟨hx1, hr1⟩, hn1⟩ := h1
    refine ⟨fun op hop => ?_, fun hnone => absurd hnone (by simp [opcode_table])⟩
    simp only [opcode_table, Option.some.injEq] at hop
    subst hop
    exact sel_move_reg_mem a0 a1 hr0 hn1 hx1
  · -- mov, constant, register
    obtain ⟨⟨hn0, hr0⟩, hx0⟩ := h0
    exact ⟨fun op hop => absurd hop (by simp [opcode_table]),
      fun _ => ⟨moveErrFirst, sel_move_err_first a0 a1 hr0 hx0⟩⟩
  · -- mov, constant, constant
    obtain ⟨⟨hn0, hr0⟩, hx0⟩ := h0
    exact ⟨fun op hop => absurd hop (by simp [opcode_table]),
      fun _ => ⟨moveErrFirst, sel_move_err_first a0 a1 hr0 hx0⟩⟩
  · -- mov, constant, memory
    obtain ⟨⟨hn0, hr0⟩, hx0⟩ := h0
    exact ⟨fun op hop => absurd hop (by simp [opcode_table]),
      fun _ => ⟨moveErrFirst, sel_move_err_first a0 a1 hr0 hx0⟩⟩
  · -- mov, memory, register
    obtain ⟨⟨hx0, hr0⟩, hn0⟩ := h0
    obtain ⟨⟨hr1, hn1⟩, hx1⟩ := h1
    refine ⟨fun op hop => ?_, fun hnone => absurd hnone (by simp [opcode_table])⟩
    simp only [opcode_table, Option.some.injEq] at hop
    subst hop
    exact sel_move_mem_reg a0 a1 hr0 hx0 hn1 hx1 hr1
  · -- mov, memory, constant
    obtain ⟨⟨hx0, hr0⟩, hn0⟩ := h0
    obtain ⟨⟨hn1, hr1⟩, hx1⟩ := h1
    refine ⟨fun op hop => ?_, fun hnone => absurd hnone (by simp [opcode_table])⟩
    simp only [opcode_table, Option.some.injEq] at hop
    subst hop
    exact sel_move_mem_const a0 a1 hr0 hx0 hn1
  · -- mov, memory, memory
    obtain ⟨⟨hx0, hr0⟩, hn0⟩ := h0
    obtain ⟨⟨hx1, hr1⟩, hn1⟩ := h1
    refine ⟨fun op hop => ?_, fun hnone => absurd hnone (by simp [opcode_table])⟩
    simp only [opcode_table, Option.some.injEq] at hop
    subst hop
    exact sel_move_mem_mem a0 a1 hr0 hx0 hn1 hx1

/-- Claim C2 witness: `add` with a register and a constant token selects
opcode `000101`. -/
theorem claim_C2_witness :
    mnemonicFun Mnemonic.add ["AC".toList, "5".toList]
      = encodePair OperandKind.register OperandKind.constant ("000101".toList)
          ("AC".toList) ("5".toList) :=
  (claim_C2_opcode_selection Mnemonic.add ("AC".toList) ("5".toList)
    OperandKind.register OperandKind.constant (by decide) (by decide)).1
    ("000101".toList) rfl

theorem runFrom_cons_ok (l c : List Char) (hl : run [l] = RunResult.ok [c])
    (i : Nat) (acc : List (List Char)) (rest : List (List Char)) :
    runFrom i acc (l :: rest) = runFrom (i + 1) (acc ++ [c]) rest := by
  simp only [run, runFrom] at hl
  cases ht : tokenize l with
  | nil => simp only [ht] at hl; exact absurd hl (by simp)
  | cons t0 targs =>
    simp only [ht] at hl
    cases hf : instruction_reference t0 with
    | none => simp only [hf] at hl; exact absurd hl (by simp)
    | some f =>
      simp only [hf] at hl
      cases hres : f targs with
      | ok code =>
        simp only [hres, runFrom, List.nil_append, RunResult.ok.injEq,
          List.cons.injEq, and_true] at hl
        simp only [runFrom, ht, hf, hres, hl]
      | error e =>
        simp only [hres] at hl
        cases e <;> simp at hl

theorem runFrom_cons_err (bad m : List Char) (hl : run [bad] = RunResult.err 1 m)
    (i : Nat) (acc : List (List Char)) (rest : List (List Char)) :
    runFrom i acc (bad :: rest) = RunResult.err (i + 1) m := by
  simp only [run, runFrom] at hl
  cases ht : tokenize bad with
  | nil => simp only [ht] at hl; exact absurd hl (by simp)
  | cons t0 targs =>
    simp only [ht] at hl
    cases hf : instruction_reference t0 with
    | none =>
      simp only [hf, RunResult.err.injEq, Nat.zero_add, true_and] at hl
      simp only [runFrom, ht, hf, hl]
    | some f =>
      simp only [hf] at hl
      cases hres : f targs with
      | ok code =>
        simp only [hres, runFrom] at hl
        exact absurd hl (by simp)
      | error e =>
        simp only [hres] at hl
        cases e with
        | synErr msg =>
          simp only [RunResult.err.injEq, Nat.zero_add, true_and] at hl
          simp only [runFrom, ht, hf, hres, hl]
        | keyErr k => simp at hl
        | valErr => simp at hl
        | idxErr => simp at hl

theorem runFrom_cons_idx (ws : List Char) (hws : tokenize ws = [])
    (i : Nat) (acc : List (List Char)) (rest : List (List Char)) :
    runFrom i acc (ws :: rest) = RunResult.crash PyErr.idxErr := by
  simp only [runFrom, hws]

theorem splitWsAux_space : ∀ s : List Char,
    (∀ ch ∈ s, pySpace ch = true) → splitWsAux s [] = [] := by
  intro s
  induction s with
  | nil => intro _; rfl
  | cons c cs ih =>
    intro h
    have hc : pySpace c = true := h c (by simp)
    simp only [splitWsAux, hc, if_true, List.isEmpty_nil]
    exact ih fun ch hch => h ch (by simp [hch])

theorem tokenize_space (ws : List Char) (h : ∀ ch ∈ ws, pySpace ch = true) :
    tokenize ws = [] := by
  unfold tokenize splitWs
  apply splitWsAux_space
  intro ch hch
  exact h ch (List.mem_of_mem_filter hch)

/-- Claim C7: if every line before `bad` assembles and `bad` fails (its
mnemonic is unknown or its encoding raises a `SyntaxError`), the driver
stops with the single diagnostic for `bad`'s 1-based line number,
independently of every later line (the result does not mention `rest`),
and since the outcome is `err`, `exit()` runs before the output file is
opened — no output file, complete or partial, is written. -/
theorem claim_C7_fail_fast (pre : List (List Char)) (bad : List Char)
    (rest : List (List Char)) (m : List Char)
    (hok : ∀ l ∈ pre, ∃ c, run [l] = RunResult.ok [c])
    (hbad : run [bad] = RunResult.err 1 m) :
    run (pre ++ bad :: rest) = RunResult.err (pre.length + 1) m := by
  have key : ∀ p : List (List Char), (∀ l ∈ p, ∃ c, run [l] = RunResult.ok [c]) →
      ∀ i acc, runFrom i acc (p ++ bad :: rest) = RunResult.err (i + p.length + 1) m := by
    intro p
    induction p with
    | nil =>
      intro _ i acc
      simpa using runFrom_cons_err bad m hbad i acc rest
    | cons l p ih =>
      intro hokp i acc
      obtain ⟨c, hc⟩ := hokp l (List.mem_cons_self l p)
      rw [List.cons_append, runFrom_cons_ok l c hc i acc _,
        ih (fun x hx => hokp x (List.mem_cons_of_mem l hx)) (i + 1) (acc ++ [c])]
      congr 1
      simp only [List.length_cons]
      omega
  have h := key pre hok 0 []
  simpa [run] using h

/-- Claim C7 witness: a good `mov` line, then `movx 1` with an unknown
mnemonic at line 2, then another line that is never reached. -/
theorem claim_C7_witness :
    run (["mov AC, 5".toList] ++ ("movx 1".toList) :: ["add AC, 5".toList])
      = RunResult.err 2 ("movx is not a tasm instruction".toList) := by
  have h := claim_C7_fail_fast ["mov AC, 5".toList] ("movx 1".toList)
    ["add AC, 5".toList] ("movx is not a tasm instruction".toList)
    (by
      intro l hl
      have hl' : l = "mov AC, 5".toList := by simpa using hl
      subst hl'
      exact ⟨"0b000000".toList ++ "000".toList ++ List.replicate 20 '0'
        ++ "101".toList ++ ['\n'], by decide⟩)
    (by decide)
  simpa using h

/-- Claim C10 (amended): in a source whose lines before the first empty or
whitespace-only line all assemble successfully, that line tokenizes to the
empty token list and the unguarded `tokens[0]` raises an unhandled
`IndexError`: the process crashes with no line-numbered diagnostic and no
output file, regardless of the remaining lines.  (If an earlier line fails
instead, the driver exits with that line's diagnostic first — see the
counterexample to the unconditional claim.) -/
theorem claim_C10_empty_line (pre : List (List Char)) (ws : List Char)
    (rest : List (List Char))
    (hok : ∀ l ∈ pre, ∃ c, run [l] = RunResult.ok [c])
    (hws : ∀ ch ∈ ws, pySpace ch = true) :
    tokenize ws = [] ∧ run (pre ++ ws :: rest) = RunResult.crash PyErr.idxErr := by
  have htok : tokenize ws = [] := tokenize_space ws hws
  have key : ∀ p : List (List Char), (∀ l ∈ p, ∃ c, run [l] = RunResult.ok [c]) →
      ∀ i acc, runFrom i acc (p ++ ws :: rest) = RunResult.crash PyErr.idxErr := by
    intro p
    induction p with
    | nil => intro _ i acc; exact runFrom_cons_idx ws htok i acc rest
    | cons l p ih =>
      intro hokp i acc
      obtain ⟨c, hc⟩ := hokp l (List.mem_cons_self l p)
      rw [List.cons_append, runFrom_cons_ok l c hc i acc _]
      exact ih (fun x hx => hokp x (List.mem_cons_of_mem l hx)) (i + 1) (acc ++ [c])
  exact ⟨htok, key pre hok 0 []⟩

/-- Claim C10 counterexample: the source text `zzz\n\nmov AC, 5` contains
an empty line, yet the process does not crash without a diagnostic — the
unknown mnemonic on line 1 prints a line-numbered diagnostic and exits
before the empty line is ever reached, refuting the unconditional claim. -/
theorem claim_C10_cex :
    ([] ∈ splitOnNl ("zzz\n\nmov AC, 5".toList))
    ∧ run (splitOnNl ("zzz\n\nmov AC, 5".toList))
        = RunResult.err 1 ("zzz is not a tasm instruction".toList)
    ∧ RunResult.err 1 ("zzz is not a tasm instruction".toList)
        ≠ RunResult.crash PyErr.idxErr := by
  refine ⟨by decide, by decide, by decide⟩

/-- Claim C10 witness: a file ending in a newline splits into a good line
followed by the empty trailing line, and the driver crashes with
`IndexError`. -/
theorem claim_C10_witness :
    splitOnNl ("mov AC, 5\n".toList) = ["mov AC, 5".toList, []]
    ∧ run (splitOnNl ("mov AC, 5\n".toList)) = RunResult.crash PyErr.idxErr := by
  constructor
  · decide
  · rw [(by decide : splitOnNl ("mov AC, 5\n".toList)
      = ["mov AC, 5".toList] ++ [] :: ([] : List (List Char)))]
    exact (claim_C10_empty_line ["mov AC, 5".toList] [] []
      (by
        intro l hl
        have hl' : l = "mov AC, 5".toList := by simpa using hl
        subst hl'
        exact ⟨"0b000000".toList ++ "000".toList ++ List.replicate 20 '0'
          ++ "101".toList ++ ['\n'], by decide⟩)
      (by intro ch hch; exact absurd hch (by simp))).2

/-- Claim C6: the source line `mov AC, 0x3FF` tokenizes to
`["mov", "AC", "0x3FF"]` and assembles to exactly one machine word:
after the 2-character prefix, opcode `000001`, register field `000`,
13 zero-padding bits, and memory field `1111111111`. -/
theorem claim_C6_end_to_end :
    tokenize ("mov AC, 0x3FF".toList)
      = ["mov".toList, "AC".toList, "0x3FF".toList]
    ∧ run [("mov AC, 0x3FF".toList)]
        = RunResult.ok [("0b000001".toList ++ "000".toList
            ++ List.replicate 13 '0' ++ "1111111111".toList ++ ['\n'])] := by
  constructor <;> decide
